import Mathlib

/-!
# PCA9546A 4-channel I2C bus switch driver

A shallow embedding of `src/src/PCA9546A.h` and `src/src/PCA9546A.cpp`.

* `uint8_t` values are natural numbers; every assignment to a `uint8_t`
  that could leave the range is written with an explicit `% 256`.
* The driver object is the record `PCA9546A`; a member function that
  mutates the object takes the record and returns the new one.
* The I2C transport (`bus`, inherited from `HasI2CDevice`) is not part of
  the repository. Its answers are an argument of each operation
  (`I2CDevice`), and the calls made on it are appended to `busLog`.
-/

/-- One call made on the I2C transport `bus`. -/
inductive BusCall where
  | beginTransmission
  | write (data : Nat)
  | endTransmission
  | requestBytes (count : Nat)
  | read
  deriving DecidableEq, Repr

/-- What the transport answers to the calls a single driver operation makes:
the status `endTransmission()` reports (0 is success), whether
`requestBytes(count)` succeeds, and the value `read()` delivers. -/
structure I2CDevice where
  endTransmission : Int
  requestBytes : Nat → Bool
  read : Nat

/-- The driver object: the 7-bit device address handed to `HasI2CDevice`, the
local copy `m_control_reg` of the control register, and the calls made on the
transport so far (oldest first). -/
structure PCA9546A where
  address : Nat
  m_control_reg : Nat
  busLog : List BusCall
  deriving DecidableEq, Repr

/-- Modelled from the spec: the `bitClear(value, bit)` helper of the Arduino
core (`Arduino.h` is not under src/), which clears bit `bit` of `value`; the
core writes it `value &= ~(1UL << bit)` on a 32-bit `unsigned long`. -/
def bitClear (value bit : Nat) : Nat :=
  value &&& (0xFFFFFFFF ^^^ ((1 <<< bit) % 2 ^ 32))

namespace PCA9546A

/-- The default address, all address pins low. -/
def I2C_ADDR_DEFAULT : Nat := 0x70

/-- Mask of the control register bits that stand for existing channels. -/
def CHANNEL_MASK : Nat := 0x0F

/-- Value stored when a device read fails. -/
def INVALID_DATA : Nat := 0xFF

/-- Record one transport call in the log. -/
def logCall (self : PCA9546A) (c : BusCall) : PCA9546A :=
  { self with busLog := self.busLog ++ [c] }

/-- `CalculateAddressFromPins(a0, a1, a2)`. -/
def CalculateAddressFromPins (a0 a1 a2 : Bool) : Nat :=
  (I2C_ADDR_DEFAULT ||| ((if a2 then 1 else 0) <<< 2) ||| ((if a1 then 1 else 0) <<< 1)
    ||| ((if a0 then 1 else 0) <<< 0)) % 256

/-- `PCA9546A(TwoWire& tw, uint8_t address)`: hands the address to the base
class and performs no I/O. The member `m_control_reg` has no initialiser, so
its value `uninit` is whatever the storage held: zero for an object with
static storage duration, indeterminate otherwise. -/
def mk_tw (address : Nat) (uninit : Nat) : PCA9546A :=
  { address := address, m_control_reg := uninit, busLog := [] }

/-- `PCA9546A(uint8_t address = I2C_ADDR_DEFAULT)`, delegating to `mk_tw`. -/
def mk_address (address : Option Nat) (uninit : Nat) : PCA9546A :=
  mk_tw (address.getD I2C_ADDR_DEFAULT) uninit

/-- `PCA9546A(bool a0, bool a1, bool a2)`, delegating to `mk_tw`. -/
def mk_pins (a0 a1 a2 : Bool) (uninit : Nat) : PCA9546A :=
  mk_tw (CalculateAddressFromPins a0 a1 a2) uninit

/-- `getControlRegister()`. -/
def getControlRegister (self : PCA9546A) : Nat :=
  self.m_control_reg

/-- `channelEnabled(ch)`. -/
def channelEnabled (self : PCA9546A) (ch : Nat) : Bool :=
  if ch > 3 then false
  else
    let enabledChannels := self.m_control_reg &&& CHANNEL_MASK
    (enabledChannels &&& (1 <<< ch)) != 0

/-- `refreshDeviceStatus()`. -/
def refreshDeviceStatus (bus : I2CDevice) (self : PCA9546A) : PCA9546A :=
  let self := self.logCall (.requestBytes 1)
  if bus.requestBytes 1 then
    let self := self.logCall .read
    let data := bus.read % 256
    { self with m_control_reg := data }
  else
    { self with m_control_reg := INVALID_DATA }

/-- `refresh()`. -/
def refresh (bus : I2CDevice) (self : PCA9546A) : PCA9546A :=
  refreshDeviceStatus bus self

/-- `setControlRegister(reg)`. -/
def setControlRegister (bus : I2CDevice) (self : PCA9546A) (reg : Nat) : PCA9546A :=
  let self := self.logCall .beginTransmission
  let self := self.logCall (.write reg)
  let self := self.logCall .endTransmission
  let result := bus.endTransmission
  if result == 0 then
    { self with m_control_reg := reg }
  else
    self

/-- `selectChannelExclusive(ch)`. -/
def selectChannelExclusive (bus : I2CDevice) (self : PCA9546A) (ch : Nat) : PCA9546A :=
  if ch > 3 then self
  else
    let ctl := (0x1 <<< ch) % 256
    setControlRegister bus self ctl

/-- `enableChannel(ch)`. -/
def enableChannel (bus : I2CDevice) (self : PCA9546A) (ch : Nat) : PCA9546A :=
  if ch > 3 then self
  else
    let ctl := self.m_control_reg
    let ctl := (ctl ||| (0x1 <<< ch)) % 256
    setControlRegister bus self ctl

/-- `disableChannel(ch)`. -/
def disableChannel (bus : I2CDevice) (self : PCA9546A) (ch : Nat) : PCA9546A :=
  if ch > 3 then self
  else
    let ctl := self.m_control_reg
    let ctl := (bitClear ctl ch) % 256
    setControlRegister bus self ctl

/-- `enableChannels(ch0, ch1, ch2, ch3)`. -/
def enableChannels (bus : I2CDevice) (self : PCA9546A) (ch0 ch1 ch2 ch3 : Bool) : PCA9546A :=
  let ctl := 0
  let ctl := if ch0 then (ctl ||| 0x1) % 256 else ctl
  let ctl := if ch1 then (ctl ||| (0x1 <<< 1)) % 256 else ctl
  let ctl := if ch2 then (ctl ||| (0x1 <<< 2)) % 256 else ctl
  let ctl := if ch3 then (ctl ||| (0x1 <<< 3)) % 256 else ctl
  setControlRegister bus self ctl

/-- `disableAll()`. -/
def disableAll (bus : I2CDevice) (self : PCA9546A) : PCA9546A :=
  setControlRegister bus self 0

/-- A transport whose write transactions are acknowledged and whose read
request succeeds and delivers `data`. -/
def busOk (data : Nat) : I2CDevice :=
  { endTransmission := 0, requestBytes := fun _ => true, read := data }

/-- A transport with no device answering: `endTransmission()` reports
status 2 (address not acknowledged) and the read request fails. -/
def busNack : I2CDevice :=
  { endTransmission := 2, requestBytes := fun _ => false, read := 0 }

end PCA9546A

/-! ## Shared lemmas -/

namespace PCA9546A

theorem setControlRegister_reg_of_ok (bus : I2CDevice) (self : PCA9546A) (reg : Nat)
    (hok : bus.endTransmission = 0) :
    (setControlRegister bus self reg).m_control_reg = reg := by
  simp [setControlRegister, logCall, hok]

theorem setControlRegister_reg_of_fail (bus : I2CDevice) (self : PCA9546A) (reg : Nat)
    (hfail : bus.endTransmission ≠ 0) :
    (setControlRegister bus self reg).m_control_reg = self.m_control_reg := by
  simp [setControlRegister, logCall, hfail]

theorem setControlRegister_busLog (bus : I2CDevice) (self : PCA9546A) (reg : Nat) :
    (setControlRegister bus self reg).busLog
      = self.busLog ++ [.beginTransmission, .write reg, .endTransmission] := by
  by_cases h : bus.endTransmission = 0 <;> simp [setControlRegister, logCall, h]

theorem channelEnabled_iff_testBit (self : PCA9546A) (ch : Nat) :
    self.channelEnabled ch = true ↔ ch ≤ 3 ∧ self.m_control_reg.testBit ch = true := by
  unfold channelEnabled CHANNEL_MASK
  by_cases hch : ch > 3
  · simp [hch]
  · have h3 : ch ≤ 3 := by omega
    simp only [hch, if_false, h3, true_and, bne_iff_ne, ne_eq, Nat.one_shiftLeft]
    constructor
    · intro hne
      obtain ⟨i, hi⟩ := Nat.ne_zero_implies_bit_true hne
      simp only [Nat.testBit_and, Nat.testBit_two_pow, Bool.and_eq_true,
        decide_eq_true_eq] at hi
      obtain ⟨⟨hm, _⟩, rfl⟩ := hi
      exact hm
    · intro hm hzero
      have hbit : (self.m_control_reg &&& 15 &&& 2 ^ ch).testBit ch = true := by
        have h15 : Nat.testBit 15 ch = true := by
          interval_cases ch <;> decide
        simp [Nat.testBit_and, Nat.testBit_two_pow, hm, h15]
      rw [hzero] at hbit
      simp at hbit

theorem channelEnabled_congr_testBit (a b : PCA9546A) (ch : Nat)
    (h : a.m_control_reg.testBit ch = b.m_control_reg.testBit ch) :
    a.channelEnabled ch = b.channelEnabled ch := by
  rw [Bool.eq_iff_iff, channelEnabled_iff_testBit, channelEnabled_iff_testBit, h]

theorem testBit_byte_of_ge (m i : Nat) (hm : m < 256) (hi : 8 ≤ i) : m.testBit i = false := by
  apply Nat.testBit_lt_two_pow
  calc m < 2 ^ 8 := hm
    _ ≤ 2 ^ i := Nat.pow_le_pow_right (by decide) hi

set_option maxRecDepth 100000 in
theorem bitClear_byte :
    ∀ m < 256, ∀ ch < 4, (bitClear m ch) % 256 = m &&& (0xFF ^^^ (1 <<< ch)) := by
  decide

/-! ## Claims -/

/-- C1: for a channel `ch` in 0..3 and any prior mirror, when the write issued
by `selectChannelExclusive ch` is reported successful (status 0), the mirror
is exactly `1 <<< ch`, channel `ch` is enabled and every other channel in 0..3
is disabled. -/
theorem selectChannelExclusive_selects_only (bus : I2CDevice) (self : PCA9546A) (ch : Nat)
    (hch : ch ≤ 3) (hok : bus.endTransmission = 0) :
    (selectChannelExclusive bus self ch).m_control_reg = 1 <<< ch ∧
    (selectChannelExclusive bus self ch).channelEnabled ch = true ∧
    ∀ other, other ≤ 3 → other ≠ ch →
      (selectChannelExclusive bus self ch).channelEnabled other = false := by
  have hreg : (selectChannelExclusive bus self ch).m_control_reg = 1 <<< ch := by
    have hgt : ¬ ch > 3 := by omega
    simp only [selectChannelExclusive, hgt, if_false]
    rw [setControlRegister_reg_of_ok bus self _ hok]
    interval_cases ch <;> decide
  refine ⟨hreg, ?_, ?_⟩
  · rw [channelEnabled_iff_testBit, hreg, Nat.one_shiftLeft, Nat.testBit_two_pow_self]
    exact ⟨hch, rfl⟩
  · intro other _ hne
    have hfalse : ¬ (selectChannelExclusive bus self ch).channelEnabled other = true := by
      rw [channelEnabled_iff_testBit, hreg, Nat.one_shiftLeft, Nat.testBit_two_pow]
      simp [Ne.symm hne]
    simpa using hfalse

theorem selectChannelExclusive_selects_only_witness :
    (selectChannelExclusive (busOk 0) (mk_tw 0x70 0xFF) 2).m_control_reg = 4 ∧
    (selectChannelExclusive (busOk 0) (mk_tw 0x70 0xFF) 2).channelEnabled 2 = true ∧
    (selectChannelExclusive (busOk 0) (mk_tw 0x70 0xFF) 2).channelEnabled 0 = false := by
  have h := selectChannelExclusive_selects_only (busOk 0) (mk_tw 0x70 0xFF) 2
    (by decide) rfl
  exact ⟨h.1, h.2.1, h.2.2 0 (by decide) (by decide)⟩

/-- C2: when `endTransmission` reports a non-zero status, the mirror after
`setControlRegister`, `selectChannelExclusive`, `enableChannel`,
`disableChannel`, `enableChannels` and `disableAll` equals the mirror before
the call, whatever the arguments and the prior mirror. -/
theorem failed_write_keeps_mirror (bus : I2CDevice) (self : PCA9546A)
    (hfail : bus.endTransmission ≠ 0) :
    (∀ reg, (setControlRegister bus self reg).m_control_reg = self.m_control_reg) ∧
    (∀ ch, (selectChannelExclusive bus self ch).m_control_reg = self.m_control_reg) ∧
    (∀ ch, (enableChannel bus self ch).m_control_reg = self.m_control_reg) ∧
    (∀ ch, (disableChannel bus self ch).m_control_reg = self.m_control_reg) ∧
    (∀ ch0 ch1 ch2 ch3,
      (enableChannels bus self ch0 ch1 ch2 ch3).m_control_reg = self.m_control_reg) ∧
    (disableAll bus self).m_control_reg = self.m_control_reg := by
  refine ⟨fun reg => setControlRegister_reg_of_fail bus self reg hfail, ?_, ?_, ?_, ?_, ?_⟩
  · intro ch
    unfold selectChannelExclusive
    split
    · rfl
    · exact setControlRegister_reg_of_fail bus self _ hfail
  · intro ch
    unfold enableChannel
    split
    · rfl
    · exact setControlRegister_reg_of_fail bus self _ hfail
  · intro ch
    unfold disableChannel
    split
    · rfl
    · exact setControlRegister_reg_of_fail bus self _ hfail
  · intro ch0 ch1 ch2 ch3
    exact setControlRegister_reg_of_fail bus self _ hfail
  · exact setControlRegister_reg_of_fail bus self _ hfail

theorem failed_write_keeps_mirror_witness :
    (setControlRegister busNack (mk_tw 0x70 0x05) 0x0A).m_control_reg = 0x05 ∧
    (enableChannel busNack (mk_tw 0x70 0x05) 1).m_control_reg = 0x05 ∧
    (disableAll busNack (mk_tw 0x70 0x05)).m_control_reg = 0x05 := by
  have h := failed_write_keeps_mirror busNack (mk_tw 0x70 0x05) (by decide)
  exact ⟨h.1 0x0A, h.2.2.1 1, h.2.2.2.2.2⟩

/-- C3: for every `reg` (bits 4-7 included) and every prior mirror, when the
transport reports status 0, `getControlRegister` after `setControlRegister reg`
returns exactly `reg`, with no masking. -/
theorem setControlRegister_stores_reg (bus : I2CDevice) (self : PCA9546A) (reg : Nat)
    (hok : bus.endTransmission = 0) :
    (setControlRegister bus self reg).getControlRegister = reg :=
  setControlRegister_reg_of_ok bus self reg hok

theorem setControlRegister_stores_reg_witness :
    (setControlRegister (busOk 0) (mk_tw 0x70 0x03) 0xF5).getControlRegister = 0xF5 :=
  setControlRegister_stores_reg (busOk 0) (mk_tw 0x70 0x03) 0xF5 rfl

/-- C4: after `refresh` the mirror is determined by the transport alone: when
the 1-byte request succeeds it is the byte the transport delivered, unmodified;
when the request fails it is 0xFF; and two drivers with any two prior states
end with the same mirror. -/
theorem refresh_mirror_from_transport (bus : I2CDevice) (self : PCA9546A) :
    (bus.requestBytes 1 = true → bus.read < 256 →
      (refresh bus self).getControlRegister = bus.read) ∧
    (bus.requestBytes 1 = false → (refresh bus self).getControlRegister = 0xFF) ∧
    (∀ other : PCA9546A,
      (refresh bus other).getControlRegister = (refresh bus self).getControlRegister) := by
  refine ⟨?_, ?_, ?_⟩
  · intro hreq hbyte
    simp [refresh, refreshDeviceStatus, getControlRegister, logCall, hreq,
      Nat.mod_eq_of_lt hbyte]
  · intro hreq
    simp [refresh, refreshDeviceStatus, getControlRegister, logCall, hreq, INVALID_DATA]
  · intro other
    by_cases hreq : bus.requestBytes 1 = true <;>
      simp [refresh, refreshDeviceStatus, getControlRegister, logCall, hreq]

theorem refresh_mirror_from_transport_witness :
    (refresh (busOk 0xA3) (mk_tw 0x70 0x01)).getControlRegister = 0xA3 ∧
    (refresh busNack (mk_tw 0x70 0x01)).getControlRegister = 0xFF := by
  refine ⟨(refresh_mirror_from_transport (busOk 0xA3) (mk_tw 0x70 0x01)).1 rfl (by decide), ?_⟩
  exact (refresh_mirror_from_transport busNack (mk_tw 0x70 0x01)).2.1 rfl

/-- C5: `channelEnabled ch` is true exactly when `ch ≤ 3` and bit `ch` of the
mirror is set; it is false for every `ch > 3`, also on the mirror 0xFF; and it
depends on the low four bits of the mirror only. -/
theorem channelEnabled_spec (self : PCA9546A) (ch : Nat) :
    (self.channelEnabled ch = true ↔ ch ≤ 3 ∧ self.m_control_reg.testBit ch = true) ∧
    (3 < ch → self.channelEnabled ch = false) ∧
    (∀ other : PCA9546A, other.m_control_reg % 16 = self.m_control_reg % 16 →
      other.channelEnabled ch = self.channelEnabled ch) := by
  refine ⟨channelEnabled_iff_testBit self ch, ?_, ?_⟩
  · intro hch
    simp [channelEnabled, hch]
  · intro other hlow
    have hmask : ∀ m : Nat, m &&& 15 = m % 16 := fun m =>
      Nat.and_pow_two_sub_one_eq_mod m 4
    simp only [channelEnabled, CHANNEL_MASK, hmask, hlow]

theorem channelEnabled_spec_witness :
    (mk_tw 0x70 0xFF).channelEnabled 4 = false ∧
    (mk_tw 0x70 0xF2).channelEnabled 1 = (mk_tw 0x70 0x02).channelEnabled 1 := by
  refine ⟨(channelEnabled_spec (mk_tw 0x70 0xFF) 4).2.1 (by decide), ?_⟩
  exact (channelEnabled_spec (mk_tw 0x70 0x02) 1).2.2 (mk_tw 0x70 0xF2) (by decide)

/-- C6: for every `ch > 3`, every prior state and every transport,
`enableChannel ch`, `disableChannel ch` and `selectChannelExclusive ch` return
the driver unchanged: same mirror, and no call added to the transport log. -/
theorem out_of_range_channel_noop (bus : I2CDevice) (self : PCA9546A) (ch : Nat)
    (hch : 3 < ch) :
    enableChannel bus self ch = self ∧
    disableChannel bus self ch = self ∧
    selectChannelExclusive bus self ch = self := by
  simp [enableChannel, disableChannel, selectChannelExclusive, hch]

theorem out_of_range_channel_noop_witness :
    enableChannel (busOk 0) (mk_tw 0x70 0x05) 4 = mk_tw 0x70 0x05 ∧
    disableChannel (busOk 0) (mk_tw 0x70 0x05) 255 = mk_tw 0x70 0x05 ∧
    (selectChannelExclusive busNack (mk_tw 0x70 0x05) 7).busLog = [] := by
  refine ⟨(out_of_range_channel_noop (busOk 0) (mk_tw 0x70 0x05) 4 (by decide)).1,
    (out_of_range_channel_noop (busOk 0) (mk_tw 0x70 0x05) 255 (by decide)).2.1, ?_⟩
  rw [(out_of_range_channel_noop busNack (mk_tw 0x70 0x05) 7 (by decide)).2.2]
  rfl

/-- C7, as stated: after `disableAll` every channel in 0..3 reads as disabled.
It fails when the write is not acknowledged: channel 0, selected by an
earlier successful `selectChannelExclusive 0`, still reads as enabled after a
`disableAll` whose `endTransmission` reports status 2. -/
theorem disableAll_failed_write_counterexample :
    (disableAll busNack
        (selectChannelExclusive (busOk 0) (mk_tw 0x70 0xFF) 0)).getControlRegister = 0x01 ∧
    (disableAll busNack
        (selectChannelExclusive (busOk 0) (mk_tw 0x70 0xFF) 0)).channelEnabled 0 = true := by
  decide

/-- C7, amended: for every prior mirror and every `ch` (in 0..3 or not), after
a `disableAll` whose write is reported successful (status 0), the mirror is 0
and `channelEnabled ch` is false. -/
theorem disableAll_ok_disables (bus : I2CDevice) (self : PCA9546A) (ch : Nat)
    (hok : bus.endTransmission = 0) :
    (disableAll bus self).getControlRegister = 0 ∧
    (disableAll bus self).channelEnabled ch = false := by
  have hreg : (disableAll bus self).m_control_reg = 0 :=
    setControlRegister_reg_of_ok bus self 0 hok
  refine ⟨hreg, ?_⟩
  have hfalse : ¬ (disableAll bus self).channelEnabled ch = true := by
    rw [channelEnabled_iff_testBit, hreg]
    simp
  simpa using hfalse

theorem disableAll_ok_disables_witness :
    (disableAll (busOk 0) (mk_tw 0x70 0xFF)).getControlRegister = 0 ∧
    (disableAll (busOk 0) (mk_tw 0x70 0xFF)).channelEnabled 3 = false :=
  disableAll_ok_disables (busOk 0) (mk_tw 0x70 0xFF) 3 rfl

/-- C8: `enableChannels b0 b1 b2 b3` issues one write transaction whose byte is
`b0 + 2*b1 + 4*b2 + 8*b3`, whatever the prior mirror; when that write succeeds
the mirror equals this byte and `channelEnabled i` is `bi` for each `i` in
0..3. -/
theorem enableChannels_absolute_mask (bus : I2CDevice) (self : PCA9546A)
    (b0 b1 b2 b3 : Bool) :
    (enableChannels bus self b0 b1 b2 b3).busLog
      = self.busLog ++ [.beginTransmission,
          .write (b0.toNat + 2 * b1.toNat + 4 * b2.toNat + 8 * b3.toNat),
          .endTransmission] ∧
    (bus.endTransmission = 0 →
      (enableChannels bus self b0 b1 b2 b3).m_control_reg
        = b0.toNat + 2 * b1.toNat + 4 * b2.toNat + 8 * b3.toNat ∧
      (enableChannels bus self b0 b1 b2 b3).channelEnabled 0 = b0 ∧
      (enableChannels bus self b0 b1 b2 b3).channelEnabled 1 = b1 ∧
      (enableChannels bus self b0 b1 b2 b3).channelEnabled 2 = b2 ∧
      (enableChannels bus self b0 b1 b2 b3).channelEnabled 3 = b3) := by
  constructor
  · unfold enableChannels
    rw [setControlRegister_busLog]
    cases b0 <;> cases b1 <;> cases b2 <;> cases b3 <;> rfl
  · intro hok
    have hreg : ∀ ch, (enableChannels bus self b0 b1 b2 b3).channelEnabled ch
        = (mk_tw 0 (b0.toNat + 2 * b1.toNat + 4 * b2.toNat + 8 * b3.toNat)).channelEnabled
            ch := by
      intro ch
      apply channelEnabled_congr_testBit
      unfold enableChannels
      rw [setControlRegister_reg_of_ok bus self _ hok]
      cases b0 <;> cases b1 <;> cases b2 <;> cases b3 <;> rfl
    refine ⟨?_, ?_, ?_, ?_, ?_⟩
    · unfold enableChannels
      rw [setControlRegister_reg_of_ok bus self _ hok]
      cases b0 <;> cases b1 <;> cases b2 <;> cases b3 <;> rfl
    all_goals
      rw [hreg]
      cases b0 <;> cases b1 <;> cases b2 <;> cases b3 <;> decide

theorem enableChannels_absolute_mask_witness :
    (enableChannels (busOk 0) (mk_tw 0x70 0xFF) true false true false).m_control_reg = 0b0101 ∧
    (enableChannels (busOk 0) (mk_tw 0x70 0xFF) true false true false).channelEnabled 0 = true ∧
    (enableChannels (busOk 0) (mk_tw 0x70 0xFF) true false true false).channelEnabled 1 = false ∧
    (enableChannels (busOk 0) (mk_tw 0x70 0xFF) true false true false).channelEnabled 2 = true ∧
    (enableChannels (busOk 0) (mk_tw 0x70 0xFF) true false true false).channelEnabled 3 = false :=
  (enableChannels_absolute_mask (busOk 0) (mk_tw 0x70 0xFF) true false true false).2 rfl

/-- C9: for `ch` in 0..3 and a prior mirror byte `m`, a successful
`enableChannel ch` leaves the mirror equal to `m ||| (1 <<< ch)`: channel `ch`
reads as enabled, every other bit of the mirror is as before, and so is
`channelEnabled` of every other channel. -/
theorem enableChannel_sets_bit (bus : I2CDevice) (self : PCA9546A) (ch : Nat)
    (hch : ch ≤ 3) (hm : self.m_control_reg < 256) (hok : bus.endTransmission = 0) :
    (enableChannel bus self ch).m_control_reg = self.m_control_reg ||| (1 <<< ch) ∧
    (enableChannel bus self ch).channelEnabled ch = true ∧
    (∀ i, i ≠ ch →
      (enableChannel bus self ch).m_control_reg.testBit i = self.m_control_reg.testBit i) ∧
    (∀ other, other ≠ ch →
      (enableChannel bus self ch).channelEnabled other = self.channelEnabled other) := by
  have hreg : (enableChannel bus self ch).m_control_reg
      = self.m_control_reg ||| (1 <<< ch) := by
    have hgt : ¬ ch > 3 := by omega
    simp only [enableChannel, hgt, if_false]
    rw [setControlRegister_reg_of_ok bus self _ hok]
    apply Nat.mod_eq_of_lt
    have hbit : 1 <<< ch < 2 ^ 8 := by
      interval_cases ch <;> decide
    exact Nat.or_lt_two_pow hm hbit
  have hbits : ∀ i, i ≠ ch →
      (enableChannel bus self ch).m_control_reg.testBit i = self.m_control_reg.testBit i := by
    intro i hne
    rw [hreg, Nat.testBit_or, Nat.one_shiftLeft, Nat.testBit_two_pow_of_ne (Ne.symm hne)]
    simp
  refine ⟨hreg, ?_, hbits, ?_⟩
  · rw [channelEnabled_iff_testBit, hreg, Nat.testBit_or, Nat.one_shiftLeft,
      Nat.testBit_two_pow_self]
    exact ⟨hch, by simp⟩
  · intro other hne
    exact channelEnabled_congr_testBit _ _ other (hbits other hne)

theorem enableChannel_sets_bit_witness :
    (enableChannel (busOk 0) (mk_tw 0x70 0x00) 2).m_control_reg = 0x04 ∧
    (enableChannel (busOk 0) (enableChannel (busOk 0) (mk_tw 0x70 0x00) 2) 0).m_control_reg
      = 0x05 := by
  have h1 := (enableChannel_sets_bit (busOk 0) (mk_tw 0x70 0x00) 2 (by decide) (by decide) rfl).1
  have h2 := (enableChannel_sets_bit (busOk 0) (enableChannel (busOk 0) (mk_tw 0x70 0x00) 2) 0
    (by decide) (by decide) rfl).1
  exact ⟨h1, h2⟩

/-- C10: for `ch` in 0..3 and a prior mirror byte `m`, a successful
`disableChannel ch` leaves the mirror equal to `m` AND NOT `1 <<< ch` (the
complement taken in 8 bits): channel `ch` reads as disabled, every other bit of
the mirror is as before, and so is `channelEnabled` of every other channel. -/
theorem disableChannel_clears_bit (bus : I2CDevice) (self : PCA9546A) (ch : Nat)
    (hch : ch ≤ 3) (hm : self.m_control_reg < 256) (hok : bus.endTransmission = 0) :
    (disableChannel bus self ch).m_control_reg
      = self.m_control_reg &&& (0xFF ^^^ (1 <<< ch)) ∧
    (disableChannel bus self ch).channelEnabled ch = false ∧
    (∀ i, i ≠ ch →
      (disableChannel bus self ch).m_control_reg.testBit i = self.m_control_reg.testBit i) ∧
    (∀ other, other ≠ ch →
      (disableChannel bus self ch).channelEnabled other = self.channelEnabled other) := by
  have hreg : (disableChannel bus self ch).m_control_reg
      = self.m_control_reg &&& (0xFF ^^^ (1 <<< ch)) := by
    have hgt : ¬ ch > 3 := by omega
    simp only [disableChannel, hgt, if_false]
    rw [setControlRegister_reg_of_ok bus self _ hok]
    exact bitClear_byte self.m_control_reg hm ch (by omega)
  have h255 : ∀ i, Nat.testBit 0xFF i = decide (i < 8) := fun i =>
    Nat.testBit_two_pow_sub_one 8 i
  have hbits : ∀ i, i ≠ ch →
      (disableChannel bus self ch).m_control_reg.testBit i = self.m_control_reg.testBit i := by
    intro i hne
    rw [hreg, Nat.testBit_and, Nat.testBit_xor, Nat.one_shiftLeft,
      Nat.testBit_two_pow_of_ne (Ne.symm hne), h255]
    by_cases hi : i < 8
    · simp [hi]
    · rw [testBit_byte_of_ge _ i hm (by omega)]
      simp
  refine ⟨hreg, ?_, hbits, ?_⟩
  · have hfalse : ¬ (disableChannel bus self ch).channelEnabled ch = true := by
      rw [channelEnabled_iff_testBit, hreg, Nat.testBit_and, Nat.testBit_xor,
        Nat.one_shiftLeft, Nat.testBit_two_pow_self, h255]
      have h8 : ch < 8 := by omega
      simp [h8]
    simpa using hfalse
  · intro other hne
    exact channelEnabled_congr_testBit _ _ other (hbits other hne)

theorem disableChannel_clears_bit_witness :
    (disableChannel (busOk 0) (mk_tw 0x70 0xFF) 1).m_control_reg = 0xFD ∧
    (disableChannel (busOk 0) (mk_tw 0x70 0xFF) 1).channelEnabled 1 = false ∧
    (disableChannel (busOk 0) (mk_tw 0x70 0xFF) 1).channelEnabled 0 = true := by
  have h := disableChannel_clears_bit (busOk 0) (mk_tw 0x70 0xFF) 1 (by decide) (by decide) rfl
  exact ⟨h.1, h.2.1, h.2.2.2 0 (by decide)⟩

/-! ## Further shared lemmas -/

theorem refresh_reg_of_fail (bus : I2CDevice) (self : PCA9546A)
    (hfail : bus.requestBytes 1 = false) :
    (refresh bus self).m_control_reg = 0xFF := by
  simp [refresh, refreshDeviceStatus, logCall, hfail, INVALID_DATA]

theorem enableChannel_reg_of_ok (bus : I2CDevice) (self : PCA9546A) (ch : Nat)
    (hch : ch ≤ 3) (hok : bus.endTransmission = 0) :
    (enableChannel bus self ch).m_control_reg = (self.m_control_reg ||| (1 <<< ch)) % 256 := by
  have hgt : ¬ ch > 3 := by omega
  simp only [enableChannel, hgt, if_false]
  exact setControlRegister_reg_of_ok bus self _ hok

theorem disableChannel_reg_of_ok (bus : I2CDevice) (self : PCA9546A) (ch : Nat)
    (hch : ch ≤ 3) (hok : bus.endTransmission = 0) :
    (disableChannel bus self ch).m_control_reg = (bitClear self.m_control_reg ch) % 256 := by
  have hgt : ¬ ch > 3 := by omega
  simp only [disableChannel, hgt, if_false]
  exact setControlRegister_reg_of_ok bus self _ hok

theorem selectChannelExclusive_reg_of_ok (bus : I2CDevice) (self : PCA9546A) (ch : Nat)
    (hch : ch ≤ 3) (hok : bus.endTransmission = 0) :
    (selectChannelExclusive bus self ch).m_control_reg = (1 <<< ch) % 256 := by
  have hgt : ¬ ch > 3 := by omega
  simp only [selectChannelExclusive, hgt, if_false]
  exact setControlRegister_reg_of_ok bus self _ hok

/-! ## Claims on addresses, construction and the transport log -/

/-- C11: `CalculateAddressFromPins a0 a1 a2` is `0x70 | (a2 << 2) | (a1 << 1) | a0`,
which is `0x70 + 4*a2 + 2*a1 + a0` and fits in 8 bits untruncated; all pins
low give 0x70 and all pins high give 0x77. -/
theorem CalculateAddressFromPins_value (a0 a1 a2 : Bool) :
    CalculateAddressFromPins a0 a1 a2
      = 0x70 ||| (a2.toNat <<< 2) ||| (a1.toNat <<< 1) ||| a0.toNat ∧
    CalculateAddressFromPins a0 a1 a2 = 0x70 + 4 * a2.toNat + 2 * a1.toNat + a0.toNat ∧
    0x70 + 4 * a2.toNat + 2 * a1.toNat + a0.toNat < 256 ∧
    CalculateAddressFromPins false false false = 0x70 ∧
    CalculateAddressFromPins true true true = 0x77 := by
  cases a0 <;> cases a1 <;> cases a2 <;> decide

/-- C12: after a `refresh` whose bus request fails, from any prior state,
`channelEnabled ch` is true for every `ch` in 0..3 and bits 4-7 of
`getControlRegister` are all set. -/
theorem failed_refresh_reads_all_enabled (bus : I2CDevice) (self : PCA9546A)
    (hfail : bus.requestBytes 1 = false) :
    (∀ ch, ch ≤ 3 → (refresh bus self).channelEnabled ch = true) ∧
    (refresh bus self).getControlRegister &&& 0xF0 = 0xF0 := by
  have hreg := refresh_reg_of_fail bus self hfail
  constructor
  · intro ch hch
    rw [channelEnabled_iff_testBit, hreg]
    refine ⟨hch, ?_⟩
    interval_cases ch <;> decide
  · unfold getControlRegister
    rw [hreg]
    decide

theorem failed_refresh_reads_all_enabled_witness :
    (refresh busNack (mk_tw 0x70 0x00)).channelEnabled 0 = true ∧
    (refresh busNack (mk_tw 0x70 0x00)).channelEnabled 3 = true ∧
    (refresh busNack (mk_tw 0x70 0x00)).getControlRegister &&& 0xF0 = 0xF0 := by
  have h := failed_refresh_reads_all_enabled busNack (mk_tw 0x70 0x00) rfl
  exact ⟨h.1 0 (by decide), h.1 3 (by decide), h.2⟩

/-- C13: the claim is that a new driver reads every channel in 0..3 as
enabled, the state the sentinel `INVALID_DATA` stands for. No constructor
assigns `m_control_reg`, so a driver whose storage is zeroed (an object with
static storage duration) starts with the mirror 0x00, not `INVALID_DATA`, and
each of the three constructors gives `channelEnabled ch = false` for every `ch`
in 0..3. -/
theorem new_driver_zeroed_storage_reads_disabled :
    (mk_address none 0x00).getControlRegister = 0x00 ∧
    (mk_pins false false false 0x00).getControlRegister = 0x00 ∧
    (mk_tw 0x70 0x00).getControlRegister = 0x00 ∧
    (mk_address none 0x00).getControlRegister ≠ INVALID_DATA ∧
    (mk_address none 0x00).channelEnabled 0 = false ∧
    (mk_address none 0x00).channelEnabled 1 = false ∧
    (mk_address none 0x00).channelEnabled 2 = false ∧
    (mk_address none 0x00).channelEnabled 3 = false ∧
    (mk_pins false false false 0x00).channelEnabled 0 = false ∧
    (mk_pins false false false 0x00).channelEnabled 1 = false ∧
    (mk_pins false false false 0x00).channelEnabled 2 = false ∧
    (mk_pins false false false 0x00).channelEnabled 3 = false ∧
    (mk_tw 0x70 0x00).channelEnabled 0 = false ∧
    (mk_tw 0x70 0x00).channelEnabled 1 = false ∧
    (mk_tw 0x70 0x00).channelEnabled 2 = false ∧
    (mk_tw 0x70 0x00).channelEnabled 3 = false := by
  decide

/-- C14: `setControlRegister reg` appends to the transport log exactly
`beginTransmission`, `write reg`, `endTransmission`, in that order, whatever
status is reported; `refresh` appends exactly one `requestBytes 1`, followed by
one `read` exactly when the request succeeded. -/
theorem transport_call_sequence (bus : I2CDevice) (self : PCA9546A) (reg : Nat) :
    (setControlRegister bus self reg).busLog
      = self.busLog ++ [.beginTransmission, .write reg, .endTransmission] ∧
    (refresh bus self).busLog
      = self.busLog ++ (if bus.requestBytes 1 = true then [.requestBytes 1, .read]
          else [.requestBytes 1]) := by
  refine ⟨setControlRegister_busLog bus self reg, ?_⟩
  by_cases hreq : bus.requestBytes 1 = true <;>
    simp [refresh, refreshDeviceStatus, logCall, hreq]

/-! ## Claims relating the mutators -/

set_option maxRecDepth 100000 in
theorem low_nibble_closed :
    ∀ m < 16, ∀ ch < 4,
      (1 <<< ch) % 256 ≤ 15 ∧ (m ||| (1 <<< ch)) % 256 ≤ 15 ∧ (bitClear m ch) % 256 ≤ 15 := by
  decide

set_option maxRecDepth 100000 in
theorem enable_then_clear_byte :
    ∀ m < 256, ∀ ch < 4,
      (bitClear ((m ||| (1 <<< ch)) % 256) ch) % 256 = m &&& (0xFF ^^^ (1 <<< ch)) ∧
      (((m &&& 0x0F) &&& (1 <<< ch) != 0) = false → m &&& (0xFF ^^^ (1 <<< ch)) = m) := by
  decide

/-- C15: when bits 4-7 of the mirror are clear (mirror at most 0x0F), they are
still clear after `selectChannelExclusive`, `enableChannel`, `disableChannel`,
`enableChannels` or `disableAll`, for all arguments and every transport
answer; `setControlRegister` and `refresh` can set them. -/
theorem mutators_keep_upper_nibble_clear (bus : I2CDevice) (self : PCA9546A)
    (hlow : self.m_control_reg ≤ 0x0F) :
    (∀ ch, (selectChannelExclusive bus self ch).m_control_reg ≤ 0x0F) ∧
    (∀ ch, (enableChannel bus self ch).m_control_reg ≤ 0x0F) ∧
    (∀ ch, (disableChannel bus self ch).m_control_reg ≤ 0x0F) ∧
    (∀ ch0 ch1 ch2 ch3, (enableChannels bus self ch0 ch1 ch2 ch3).m_control_reg ≤ 0x0F) ∧
    (disableAll bus self).m_control_reg ≤ 0x0F ∧
    (setControlRegister (busOk 0) self 0xF0).m_control_reg = 0xF0 ∧
    (refresh (busOk 0xF0) self).m_control_reg = 0xF0 := by
  have hm : self.m_control_reg < 16 := by omega
  refine ⟨?_, ?_, ?_, ?_, ?_, ?_, ?_⟩
  · intro ch
    by_cases hch : ch > 3
    · simpa [selectChannelExclusive, hch] using hlow
    · by_cases hok : bus.endTransmission = 0
      · rw [selectChannelExclusive_reg_of_ok bus self ch (by omega) hok]
        exact (low_nibble_closed _ hm ch (by omega)).1
      · simp only [selectChannelExclusive, hch, if_false]
        rw [setControlRegister_reg_of_fail bus self _ hok]
        exact hlow
  · intro ch
    by_cases hch : ch > 3
    · simpa [enableChannel, hch] using hlow
    · by_cases hok : bus.endTransmission = 0
      · rw [enableChannel_reg_of_ok bus self ch (by omega) hok]
        exact (low_nibble_closed _ hm ch (by omega)).2.1
      · simp only [enableChannel, hch, if_false]
        rw [setControlRegister_reg_of_fail bus self _ hok]
        exact hlow
  · intro ch
    by_cases hch : ch > 3
    · simpa [disableChannel, hch] using hlow
    · by_cases hok : bus.endTransmission = 0
      · rw [disableChannel_reg_of_ok bus self ch (by omega) hok]
        exact (low_nibble_closed _ hm ch (by omega)).2.2
      · simp only [disableChannel, hch, if_false]
        rw [setControlRegister_reg_of_fail bus self _ hok]
        exact hlow
  · intro ch0 ch1 ch2 ch3
    unfold enableChannels
    by_cases hok : bus.endTransmission = 0
    · rw [setControlRegister_reg_of_ok bus self _ hok]
      cases ch0 <;> cases ch1 <;> cases ch2 <;> cases ch3 <;> decide
    · rw [setControlRegister_reg_of_fail bus self _ hok]
      exact hlow
  · unfold disableAll
    by_cases hok : bus.endTransmission = 0
    · rw [setControlRegister_reg_of_ok bus self _ hok]
      decide
    · rw [setControlRegister_reg_of_fail bus self _ hok]
      exact hlow
  · exact setControlRegister_reg_of_ok (busOk 0) self 0xF0 rfl
  · simp [refresh, refreshDeviceStatus, logCall, busOk]

theorem mutators_keep_upper_nibble_clear_witness :
    (enableChannel (busOk 0) (mk_tw 0x70 0x05) 3).m_control_reg ≤ 0x0F ∧
    (disableChannel busNack (mk_tw 0x70 0x05) 0).m_control_reg ≤ 0x0F ∧
    (enableChannels (busOk 0) (mk_tw 0x70 0x05) true true true true).m_control_reg ≤ 0x0F := by
  have h := mutators_keep_upper_nibble_clear (busOk 0) (mk_tw 0x70 0x05) (by decide)
  have h2 := mutators_keep_upper_nibble_clear busNack (mk_tw 0x70 0x05) (by decide)
  exact ⟨h.2.1 3, h2.2.2.1 0, h.2.2.2.1 true true true true⟩

/-- C16: `CalculateAddressFromPins` is injective on the eight pin
combinations, its image is exactly the addresses 0x70..0x77, and every result
is a 7-bit address (below 0x80). -/
theorem CalculateAddressFromPins_injective_range :
    (∀ a0 a1 a2 b0 b1 b2 : Bool,
      CalculateAddressFromPins a0 a1 a2 = CalculateAddressFromPins b0 b1 b2 →
        a0 = b0 ∧ a1 = b1 ∧ a2 = b2) ∧
    (∀ n : Nat, (∃ a0 a1 a2 : Bool, CalculateAddressFromPins a0 a1 a2 = n)
      ↔ 0x70 ≤ n ∧ n ≤ 0x77) ∧
    (∀ a0 a1 a2 : Bool, CalculateAddressFromPins a0 a1 a2 < 0x80) := by
  refine ⟨by decide, ?_, by decide⟩
  intro n
  constructor
  · rintro ⟨a0, a1, a2, rfl⟩
    cases a0 <;> cases a1 <;> cases a2 <;> decide
  · rintro ⟨hlo, hhi⟩
    interval_cases n <;> decide

theorem CalculateAddressFromPins_injective_range_witness :
    (true = true ∧ false = false ∧ true = true) ∧
    (∃ a0 a1 a2 : Bool, CalculateAddressFromPins a0 a1 a2 = 0x73) :=
  ⟨CalculateAddressFromPins_injective_range.1 true false true true false true rfl,
    (CalculateAddressFromPins_injective_range.2.1 0x73).mpr (by decide)⟩

/-- C17: for `ch` in 0..3 and a prior mirror byte `m`, `enableChannel ch`
followed by `disableChannel ch`, both writes succeeding, leaves the mirror equal
to `m` with bit `ch` cleared; when channel `ch` was disabled before, the mirror
is `m` again. -/
theorem enable_then_disable_clears (bus1 bus2 : I2CDevice) (self : PCA9546A) (ch : Nat)
    (hch : ch ≤ 3) (hm : self.m_control_reg < 256)
    (hok1 : bus1.endTransmission = 0) (hok2 : bus2.endTransmission = 0) :
    (disableChannel bus2 (enableChannel bus1 self ch) ch).m_control_reg
      = self.m_control_reg &&& (0xFF ^^^ (1 <<< ch)) ∧
    (self.channelEnabled ch = false →
      (disableChannel bus2 (enableChannel bus1 self ch) ch).m_control_reg
        = self.m_control_reg) := by
  have hkey := enable_then_clear_byte self.m_control_reg hm ch (by omega)
  have hreg : (disableChannel bus2 (enableChannel bus1 self ch) ch).m_control_reg
      = self.m_control_reg &&& (0xFF ^^^ (1 <<< ch)) := by
    rw [disableChannel_reg_of_ok bus2 _ ch hch hok2, enableChannel_reg_of_ok bus1 self ch hch hok1]
    exact hkey.1
  refine ⟨hreg, ?_⟩
  intro hoff
  rw [hreg]
  apply hkey.2
  have hgt : ¬ ch > 3 := by omega
  simpa [channelEnabled, hgt, CHANNEL_MASK] using hoff

theorem enable_then_disable_clears_witness :
    (disableChannel (busOk 0) (enableChannel (busOk 0) (mk_tw 0x70 0x0F) 1) 1).m_control_reg
      = 0x0D ∧
    (disableChannel (busOk 0) (enableChannel (busOk 0) (mk_tw 0x70 0xA5) 1) 1).m_control_reg
      = 0xA5 := by
  have h1 := enable_then_disable_clears (busOk 0) (busOk 0) (mk_tw 0x70 0x0F) 1
    (by decide) (by decide) rfl rfl
  have h2 := enable_then_disable_clears (busOk 0) (busOk 0) (mk_tw 0x70 0xA5) 1
    (by decide) (by decide) rfl rfl
  exact ⟨h1.1, h2.2 (by decide)⟩

/-- C18: for `ch` in 0..3 and any prior mirror, when every write succeeds,
`selectChannelExclusive ch` leaves the same mirror as `disableAll` followed by
`enableChannel ch`, and the same mirror as
`enableChannels (ch == 0) (ch == 1) (ch == 2) (ch == 3)`. -/
theorem selectChannelExclusive_equivalents (bus1 bus2 bus3 bus4 : I2CDevice)
    (self : PCA9546A) (ch : Nat) (hch : ch ≤ 3)
    (hok1 : bus1.endTransmission = 0) (hok2 : bus2.endTransmission = 0)
    (hok3 : bus3.endTransmission = 0) (hok4 : bus4.endTransmission = 0) :
    (selectChannelExclusive bus1 self ch).m_control_reg
      = (enableChannel bus3 (disableAll bus2 self) ch).m_control_reg ∧
    (selectChannelExclusive bus1 self ch).m_control_reg
      = (enableChannels bus4 self (ch == 0) (ch == 1) (ch == 2) (ch == 3)).m_control_reg := by
  have hzero : (disableAll bus2 self).m_control_reg = 0 :=
    setControlRegister_reg_of_ok bus2 self 0 hok2
  constructor
  · rw [selectChannelExclusive_reg_of_ok bus1 self ch hch hok1,
      enableChannel_reg_of_ok bus3 _ ch hch hok3, hzero]
    interval_cases ch <;> decide
  · rw [selectChannelExclusive_reg_of_ok bus1 self ch hch hok1]
    unfold enableChannels
    rw [setControlRegister_reg_of_ok bus4 self _ hok4]
    interval_cases ch <;> decide

theorem selectChannelExclusive_equivalents_witness :
    (selectChannelExclusive (busOk 0) (mk_tw 0x70 0xFF) 2).m_control_reg
      = (enableChannel (busOk 0) (disableAll (busOk 0) (mk_tw 0x70 0xFF)) 2).m_control_reg ∧
    (selectChannelExclusive (busOk 0) (mk_tw 0x70 0xFF) 2).m_control_reg
      = (enableChannels (busOk 0) (mk_tw 0x70 0xFF) (2 == 0) (2 == 1) (2 == 2)
          (2 == 3)).m_control_reg :=
  selectChannelExclusive_equivalents (busOk 0) (busOk 0) (busOk 0) (busOk 0) (mk_tw 0x70 0xFF) 2
    (by decide) rfl rfl rfl rfl

end PCA9546A
